import Mathlib

/-!
Verification of the WeddingRSVP request-admission and integrity layer:
the sanitizer / field-validator / RSVP-payload-validator pipeline
(`src/lib/security.ts` and the security validation library), the CSRF
protector, and the fixed-window rate limiter (`src/lib/rateLimiter.ts`).

Strings are modelled as `List Char` (`String.data`); JS timestamps
(`Date.now()`) as `Nat` milliseconds; the probabilistic cleanup trigger
(`Math.random() < 0.01`) and the cryptographic randomness of token bytes
are externalized as explicit parameters.  Recursions over strings are
written with an explicit fuel argument (always instantiated with the
string length, which is an upper bound on the number of steps) so that
every definition reduces by computation.
-/

namespace WeddingRSVP

/-- The JS whitespace class (`\s`, and the set trimmed by `String.trim`):
tab, LF, VT, FF, CR, space, NBSP, Ogham space, the U+2000–U+200A range,
LS, PS, NNBSP, MMSP, ideographic space, and BOM. -/
def isJsSpace (c : Char) : Bool :=
  let n := c.toNat
  n = 32 || n = 9 || n = 10 || n = 11 || n = 12 || n = 13 ||
  n = 0xa0 || n = 0x1680 || (0x2000 ≤ n && n ≤ 0x200a) ||
  n = 0x2028 || n = 0x2029 || n = 0x202f || n = 0x205f || n = 0x3000 || n = 0xfeff

/-- The JS word-character class `\w` = `[A-Za-z0-9_]`. -/
def isWordChar (c : Char) : Bool :=
  let n := c.toNat
  (65 ≤ n && n ≤ 90) || (97 ≤ n && n ≤ 122) || (48 ≤ n && n ≤ 57) || n = 95

/-- ASCII lower-casing, the canonicalization performed by the `/i` flag on
the ASCII-only patterns appearing in the source. -/
def asciiLower (c : Char) : Char :=
  if 65 ≤ c.toNat && c.toNat ≤ 90 then Char.ofNat (c.toNat + 32) else c

/-- JS `String.prototype.trim`: drop leading and trailing whitespace. -/
def jsTrimL (l : List Char) : List Char :=
  ((l.dropWhile isJsSpace).reverse.dropWhile isJsSpace).reverse

def jsTrim (s : String) : String := String.mk (jsTrimL s.data)

/-- The eleven characters of the lowered pattern in `replace(/javascript:/gi, '')`. -/
def jsProtoChars : List Char := ("javascript:").data

/-- Does a (case-insensitive) `javascript:` occurrence start at the head? -/
def isJsProtoAt (l : List Char) : Bool :=
  (l.take 11).map asciiLower == jsProtoChars

/-- Fuel-driven scanner for `replace(/javascript:/gi, '')`. -/
def stripJsProtoGo : Nat → List Char → List Char
  | _, [] => []
  | 0, l => l
  | fuel + 1, c :: rest =>
    if isJsProtoAt (c :: rest) then stripJsProtoGo fuel (rest.drop 10)
    else c :: stripJsProtoGo fuel rest

/-- `input.replace(/javascript:/gi, '')`: left-to-right removal of
non-overlapping case-insensitive occurrences of `javascript:`. -/
def stripJsProtoL (l : List Char) : List Char := stripJsProtoGo l.length l

/-- Attempt to match the regex `on\w+\s*=` (flag `/gi`) at the head of the
list; on success return the remainder after the matched span.  Since `\w`,
`\s` and `=` are pairwise disjoint character classes, the greedy
maximal-munch scan below is exactly the backtracking semantics of the JS
regex engine on this pattern. -/
def matchHandler? (l : List Char) : Option (List Char) :=
  match l with
  | c1 :: c2 :: r1 :: rest =>
    if asciiLower c1 = 'o' && asciiLower c2 = 'n' && isWordChar r1 then
      match ((r1 :: rest).dropWhile isWordChar).dropWhile isJsSpace with
      | x :: tail => if x = '=' then some tail else none
      | [] => none
    else none
  | _ => none

/-- Fuel-driven scanner for `replace(/on\w+\s*=/gi, '')`. -/
def stripHandlersGo : Nat → List Char → List Char
  | _, [] => []
  | 0, l => l
  | fuel + 1, c :: rest =>
    match matchHandler? (c :: rest) with
    | some tail => stripHandlersGo fuel tail
    | none => c :: stripHandlersGo fuel rest

/-- `input.replace(/on\w+\s*=/gi, '')`: left-to-right removal of
non-overlapping occurrences of the event-handler pattern. -/
def stripHandlersL (l : List Char) : List Char := stripHandlersGo l.length l

/-- The `sanitizeInput` of the security library: trim, hard-cap at 1000
characters, strip angle brackets, strip `javascript:`, strip inline
event-handler patterns (in that order). -/
def sanitizeInputL (l : List Char) : List Char :=
  stripHandlersL (stripJsProtoL
    (((jsTrimL l).take 1000).filter (fun c => !(c == '<' || c == '>'))))

def sanitizeInput (s : String) : String := String.mk (sanitizeInputL s.data)

/-- The apostrophe character `'` (U+0027). -/
def apos : Char := Char.ofNat 39

/-- JS `replace(/c/g, rep)` for a single literal character `c`. -/
def replaceChar (c : Char) (rep : List Char) (l : List Char) : List Char :=
  l.flatMap (fun x => if x = c then rep else [x])

/-- The `sanitizeHTML` display escaper, character-for-character as written
in the source: the replacement strings for `&`, `<`, `>` and `"` are the
characters themselves (identity substitutions), while `'` becomes `&#x27;`
and `/` becomes `&#x2F;`.  Substitutions are applied in source order. -/
def sanitizeHTMLL (l : List Char) : List Char :=
  replaceChar '/' (("&#x2F;").data)
    (replaceChar apos (("&#x27;").data)
      (replaceChar '"' (("\"").data)
        (replaceChar '>' ((">").data)
          (replaceChar '<' (("<").data)
            (replaceChar '&' (("&").data) l)))))

def sanitizeHTML (s : String) : String := String.mk (sanitizeHTMLL s.data)

/-- Scan deciding whether a case-insensitive `javascript:` occurs anywhere. -/
def containsJsProto : List Char → Bool
  | [] => false
  | c :: r => isJsProtoAt (c :: r) || containsJsProto r

/-- Scan deciding whether an `on\w+\s*=` pattern occurs anywhere. -/
def containsHandlerPat : List Char → Bool
  | [] => false
  | c :: r => (matchHandler? (c :: r)).isSome || containsHandlerPat r

/-- The decimal digit character for `n < 10`. -/
def digitChar (n : Nat) : Char := Char.ofNat (48 + n)

/-- Fuel-driven little-endian decimal digit list. -/
def toDigitsRevGo : Nat → Nat → List Char
  | 0, n => [digitChar n]
  | f + 1, n =>
    if n < 10 then [digitChar n] else digitChar (n % 10) :: toDigitsRevGo f (n / 10)

/-- The decimal numeral of `n`, as produced by JS number-to-string
interpolation in template literals. -/
def natReprL (n : Nat) : List Char := (toDigitsRevGo n n).reverse

def natReprS (n : Nat) : String := String.mk (natReprL n)

/-- The `GuestStatus` union type `'ATTENDING' | 'NOT_ATTENDING' | 'UNSELECTED'`. -/
inductive GuestStatus
  | ATTENDING
  | NOT_ATTENDING
  | UNSELECTED
deriving DecidableEq

def isAsciiLetter (c : Char) : Bool :=
  let n := c.toNat
  (65 ≤ n && n ≤ 90) || (97 ≤ n && n ≤ 122)

def isAsciiDigit (c : Char) : Bool :=
  let n := c.toNat
  48 ≤ n && n ≤ 57

/-- Result shape `{ isValid: boolean; error?: string }` of the field validators. -/
structure FieldCheck where
  isValid : Bool
  error : Option String
deriving DecidableEq

def nameErrorMessage : String :=
  "Name can only contain letters, spaces, hyphens, apostrophes, and periods"

def guestCountErrorMessage : String := "You can RSVP up to 20 guests including yourself"

def dietaryErrorMessage : String := "Dietary notes contain invalid characters"

def messageErrorMessage : String := "Message contains invalid characters"

def attendingRequiredMsg : String := "Please select if you will attend"

def guestsOnlyWhenAttendingMsg : String := "Additional guests can only be added when attending"

/-- Whole-string test of `/^[a-zA-Z\s\-\'\.]+$/`. -/
def namePatternOk (s : String) : Bool :=
  !s.data.isEmpty &&
    s.data.all (fun c => isAsciiLetter c || isJsSpace c || c = '-' || c = apos || c = '.')

/-- Whole-string test of `/^[a-zA-Z0-9\s\-\:\;\'\,\.\/\(\)&]+$/`. -/
def dietaryPatternOk (s : String) : Bool :=
  !s.data.isEmpty &&
    s.data.all (fun c => isAsciiLetter c || isAsciiDigit c || isJsSpace c ||
      c = '-' || c = ':' || c = ';' || c = apos || c = ',' || c = '.' || c = '/' ||
      c = '(' || c = ')' || c = '&')

/-- Whole-string test of `/^[a-zA-Z0-9\s\-\,\.\!\?\(\)]+$/`. -/
def messagePatternOk (s : String) : Bool :=
  !s.data.isEmpty &&
    s.data.all (fun c => isAsciiLetter c || isAsciiDigit c || isJsSpace c ||
      c = '-' || c = ',' || c = '.' || c = '!' || c = '?' || c = '(' || c = ')')

/-- The `validateName` field validator (config: maxLength 100, letter
pattern).  String length is measured in characters; the source measures
UTF-16 code units, which agree on the Basic Multilingual Plane. -/
def validateName (name : String) : FieldCheck :=
  let sanitized := sanitizeInput name
  if sanitized = ("") then ⟨false, some ("Name is required")⟩
  else if 100 < sanitized.length then
    ⟨false, some ("Name must be less than 100 characters")⟩
  else if !namePatternOk sanitized then ⟨false, some nameErrorMessage⟩
  else ⟨true, none⟩

/-- The `validateDietaryNotes` field validator (optional field, maxLength 500). -/
def validateDietaryNotes (notes : String) : FieldCheck :=
  if jsTrim notes = ("") then ⟨true, none⟩
  else
    let sanitized := sanitizeInput notes
    if 500 < sanitized.length then
      ⟨false, some ("Dietary notes must be less than 500 characters")⟩
    else if !dietaryPatternOk sanitized then ⟨false, some dietaryErrorMessage⟩
    else ⟨true, none⟩

/-- The `validateMessage` field validator (optional field, maxLength 300). -/
def validateMessage (message : String) : FieldCheck :=
  if jsTrim message = ("") then ⟨true, none⟩
  else
    let sanitized := sanitizeInput message
    if 300 < sanitized.length then
      ⟨false, some ("Message must be less than 300 characters")⟩
    else if !messagePatternOk sanitized then ⟨false, some messageErrorMessage⟩
    else ⟨true, none⟩

/-- One element of the submitted `additionalGuests` array, reduced to the
projections the source reads off the `safeGuest` record: each field is
`some` exactly when the corresponding property is a string (a non-object
array element behaves as all-`none`). -/
structure RawGuest where
  id : Option String := none
  name : Option String := none
  dietaryNotes : Option String := none

/-- The raw submission, reduced to the typed projections the source reads:
a field is `some` exactly when the submitted property has the type the
source tests for (`typeof === 'string'`, `Array.isArray`). -/
structure RawRSVPFormData where
  name : Option String := none
  attending : Option String := none
  dietaryNotes : Option String := none
  message : Option String := none
  additionalGuests : Option (List RawGuest) := none
  id : Option String := none

structure AdditionalGuest where
  id : Option String
  name : String
  dietaryNotes : String
deriving DecidableEq

structure SanitizedGuest where
  id : Option String
  name : String
  dietNotes : String
  status : GuestStatus
deriving DecidableEq

/-- The `errors` record; a field is `some msg` when the corresponding key
was assigned.  `isValid` in the source is `Object.keys(errors).length === 0`. -/
structure RSVPErrors where
  name : Option String := none
  dietaryNotes : Option String := none
  message : Option String := none
  attending : Option String := none
  additionalGuests : Option String := none
deriving DecidableEq

def RSVPErrors.isEmpty (e : RSVPErrors) : Bool :=
  e.name.isNone && e.dietaryNotes.isNone && e.message.isNone &&
    e.attending.isNone && e.additionalGuests.isNone

structure SanitizedRSVPData where
  id : Option String
  name : String
  attending : GuestStatus
  dietaryNotes : String
  message : String
  additionalGuests : List AdditionalGuest
  guests : List SanitizedGuest
deriving DecidableEq

structure RSVPValidationResult where
  isValid : Bool
  errors : RSVPErrors
  sanitizedData : SanitizedRSVPData
deriving DecidableEq

/-- `VALIDATION_CONFIG.guestCount.max - 1`. -/
def MAX_ADDITIONAL_GUESTS : Nat := 20 - 1

/-- JS truthiness of an optional string: `undefined` and `''` are falsy. -/
def truthyStr : Option String → Bool
  | none => false
  | some s => !(s == (""))

/-- The `rawAdditionalGuestCount` binding: length of the submitted array,
0 if `additionalGuests` is not an array. -/
def rawGuestCount (data : RawRSVPFormData) : Nat :=
  match data.additionalGuests with
  | some gs => gs.length
  | none => 0

/-- Per-guest sanitization inside the `additionalGuests` map. -/
def sanitizeGuest (g : RawGuest) : AdditionalGuest :=
  { id := g.id
    name := sanitizeInput (g.name.getD (""))
    dietaryNotes := sanitizeInput (g.dietaryNotes.getD ("")) }

/-- The `sanitizedAdditionalGuests` binding: `slice(0, 19)` then sanitize. -/
def rsvpSanitizedGuests (data : RawRSVPFormData) : List AdditionalGuest :=
  match data.additionalGuests with
  | some gs => (gs.take MAX_ADDITIONAL_GUESTS).map sanitizeGuest
  | none => []

/-- Coercion of the raw `attending` value.  The source admits exactly the
three literals and otherwise defaults to `UNSELECTED`; mapping the literal
`'UNSELECTED'` through the default branch is the same value. -/
def rsvpStatus (data : RawRSVPFormData) : GuestStatus :=
  match data.attending with
  | some s =>
    if s = ("ATTENDING") then GuestStatus.ATTENDING
    else if s = ("NOT_ATTENDING") then GuestStatus.NOT_ATTENDING
    else GuestStatus.UNSELECTED
  | none => GuestStatus.UNSELECTED

/-- The `forEach` loop over sanitized guests, collecting guest errors in
order (name-required / name-invalid, then dietary-invalid, per guest). -/
def guestErrorLoop (gs : List AdditionalGuest) : List String :=
  gs.enum.flatMap (fun p =>
    (if p.2.name = ("") then [("Guest ") ++ natReprS (p.1 + 1) ++ (" name is required")]
     else
       let v := validateName p.2.name
       if v.isValid then []
       else [("Guest ") ++ natReprS (p.1 + 1) ++ (": ") ++ v.error.getD ("")]) ++
    (let dv := validateDietaryNotes p.2.dietaryNotes
     if dv.isValid then []
     else [("Guest ") ++ natReprS (p.1 + 1) ++ (": ") ++ dv.error.getD ("")]))

/-- The complete `guestErrors` array in push order: per-guest loop errors,
then the attending-restriction error, then the guest-count cap error. -/
def rsvpGuestErrors (data : RawRSVPFormData) : List String :=
  guestErrorLoop (rsvpSanitizedGuests data) ++
  (if rsvpStatus data ≠ GuestStatus.ATTENDING ∧ 0 < (rsvpSanitizedGuests data).length
   then [guestsOnlyWhenAttendingMsg] else []) ++
  (if MAX_ADDITIONAL_GUESTS < rawGuestCount data then [guestCountErrorMessage] else [])

/-- The `validateRSVPData` orchestrator of the security validation
library.  The two-step `id` computation of the source (line 192 then the
unconditional truthy override) nets to: the submitted `id` when truthy,
otherwise absent.  `errors.additionalGuests` is the first collected guest
error (`guestErrors[0]`), assigned only when the list is non-empty, which
is exactly `List.head?`. -/
def validateRSVPData (data : RawRSVPFormData) (requireAttendance : Bool) :
    RSVPValidationResult :=
  let sanitizedAdditionalGuests := rsvpSanitizedGuests data
  let status := rsvpStatus data
  let nameS := sanitizeInput (data.name.getD (""))
  let dietS := sanitizeInput (data.dietaryNotes.getD (""))
  let msgS := sanitizeInput (data.message.getD (""))
  let idVal : Option String := if truthyStr data.id then data.id else none
  let nameV := validateName nameS
  let dietV := validateDietaryNotes dietS
  let msgV := validateMessage msgS
  let guestErrors := rsvpGuestErrors data
  let additionalGuestsFinal :=
    if status ≠ GuestStatus.ATTENDING ∧ 0 < sanitizedAdditionalGuests.length
    then [] else sanitizedAdditionalGuests
  let errors : RSVPErrors :=
    { name := nameV.error
      dietaryNotes := dietV.error
      message := msgV.error
      attending :=
        if requireAttendance = true ∧ status = GuestStatus.UNSELECTED
        then some attendingRequiredMsg else none
      additionalGuests := guestErrors.head? }
  let guests : List SanitizedGuest :=
    ⟨idVal, nameS, dietS, status⟩ ::
      (if status = GuestStatus.ATTENDING then
        additionalGuestsFinal.map (fun g => ⟨g.id, g.name, g.dietaryNotes, GuestStatus.ATTENDING⟩)
      else [])
  { isValid := errors.isEmpty
    errors := errors
    sanitizedData :=
      { id := idVal
        name := nameS
        attending := status
        dietaryNotes := dietS
        message := msgS
        additionalGuests := additionalGuestsFinal
        guests := guests } }

structure CSRFToken where
  token : String
  expires : Nat
deriving DecidableEq

/-- `CSRF_CONFIG.tokenLength`. -/
def CSRF_tokenLength : Nat := 32

/-- `CSRF_CONFIG.expirationMinutes`. -/
def CSRF_expirationMinutes : Nat := 60

/-- Hex digit character for `n < 16`, as produced by `Number.toString(16)`. -/
def hexDigitChar (n : Nat) : Char :=
  if n < 10 then digitChar n else Char.ofNat (87 + n)

/-- `b.toString(16).padStart(2, '0')` for a byte: the pad supplies the
leading `0` exactly when `b < 16`, i.e. when the high digit is `0`. -/
def byteToHex (b : Fin 256) : List Char :=
  [hexDigitChar (b.val / 16), hexDigitChar (b.val % 16)]

/-- Hex encoding of the random byte array in `generateCSRFToken`. -/
def hexEncode (bytes : List (Fin 256)) : String :=
  String.mk (bytes.flatMap byteToHex)

/-- `generateCSRFToken`, with the `crypto.getRandomValues` output
externalized as the `bytes` argument (the source fills an array of
`CSRF_CONFIG.tokenLength = 32` bytes). -/
def generateCSRFToken (bytes : List (Fin 256)) (now : Nat) : CSRFToken :=
  { token := hexEncode bytes
    expires := now + CSRF_expirationMinutes * 60 * 1000 }

/-- The stateless `verifyCSRFToken(token, expires)` at time `now`: a falsy
(empty) token or `now > expires` is invalid, anything else valid. -/
def verifyCSRFToken (token : String) (expires : Nat) (now : Nat) : Bool :=
  if token = ("") ∨ expires < now then false else true

/-- The `CSRFProtector` registry: the `Map` from token strings to stored tokens. -/
def TokenRegistry : Type := String → Option CSRFToken

def emptyRegistry : TokenRegistry := fun _ => none

/-- `CSRFProtector.generateToken`: generate and store under the token string. -/
def protectorGenerate (reg : TokenRegistry) (bytes : List (Fin 256)) (now : Nat) :
    String × TokenRegistry :=
  let t := generateCSRFToken bytes now
  (t.token, fun k => if k = t.token then some t else reg k)

/-- `CSRFProtector.verifyToken` at time `now`: unknown token → invalid;
stored token failing `verifyCSRFToken` → delete its entry and invalid;
otherwise valid, registry untouched. -/
def protectorVerify (reg : TokenRegistry) (token : String) (now : Nat) :
    Bool × TokenRegistry :=
  match reg token with
  | none => (false, reg)
  | some stored =>
    if verifyCSRFToken stored.token stored.expires now then (true, reg)
    else (false, fun k => if k = token then none else reg k)

/-- `verifyFormCSRFToken`: `Boolean(token) && token.length === CSRF_CONFIG.tokenLength`. -/
def verifyFormCSRFToken (token : String) : Bool :=
  !(token == ("")) && token.length == CSRF_tokenLength

/-- The length test of `createCSRFMiddleware` (`token.length !== 32` → 403). -/
def csrfMiddlewareLengthOk (token : String) : Bool :=
  token.length == CSRF_tokenLength

/-- Accumulator-based splitter realizing JS `split(',')`. -/
def splitCommaGo : List Char → List Char → List String
  | acc, [] => [String.mk acc.reverse]
  | acc, ',' :: t => String.mk acc.reverse :: splitCommaGo [] t
  | acc, c :: t => splitCommaGo (c :: acc) t

/-- JS `s.split(',')`: always at least one element; `''` splits to `['']`. -/
def jsSplitComma (s : String) : List String := splitCommaGo [] s.data

/-- `process.env.ALLOWED_ORIGINS?.split(',') || []`. -/
def allowedOriginsList (env : Option String) : List String :=
  match env with
  | some s => jsSplitComma s
  | none => []

/-- `origin || (referer && new URL(referer).origin) || ''`, with URL-origin
extraction (a platform builtin) externalized as `urlOrigin`. -/
def derivedOrigin (urlOrigin : String → String) (origin referer : Option String) : String :=
  if truthyStr origin then origin.getD ("")
  else if truthyStr referer then urlOrigin (referer.getD (""))
  else ("")

/-- `verifyRequestOrigin`, parameterized by `process.env.NODE_ENV`,
`process.env.ALLOWED_ORIGINS` and the request's `origin`/`referer` headers. -/
def verifyRequestOrigin (nodeEnv : String) (allowedOriginsEnv : Option String)
    (urlOrigin : String → String) (origin referer : Option String) : Bool :=
  if nodeEnv = ("production") then
    if ¬ truthyStr origin ∧ ¬ truthyStr referer then false
    else
      if 0 < (allowedOriginsList allowedOriginsEnv).length ∧
          ¬ (allowedOriginsList allowedOriginsEnv).contains
              (derivedOrigin urlOrigin origin referer) then false
      else true
  else true

structure RateLimitConfig where
  windowMs : Nat
  maxRequests : Nat
deriving DecidableEq

structure RateRecord where
  count : Nat
  resetTime : Nat
deriving DecidableEq

structure RateLimitResult where
  allowed : Bool
  remaining : Int
  resetTime : Nat
  retryAfter : Option Nat
deriving DecidableEq

/-- The module-level `rateLimitStore` object, keyed by strings. -/
def RateStore : Type := List Char → Option RateRecord

def emptyRateStore : RateStore := fun _ => none

/-- The composite key `` `${clientId}:${config.windowMs}:${config.maxRequests}` ``. -/
def rlKey (clientId : List Char) (cfg : RateLimitConfig) : List Char :=
  clientId ++ ':' :: natReprL cfg.windowMs ++ ':' :: natReprL cfg.maxRequests

/-- `cleanupExpiredEntries(now)`: drop every record with `resetTime < now`. -/
def cleanupExpiredEntries (now : Nat) (st : RateStore) : RateStore :=
  fun k =>
    match st k with
    | some r => if r.resetTime < now then none else some r
    | none => none

def setStore (st : RateStore) (k : List Char) (r : RateRecord) : RateStore :=
  fun k' => if k' = k then some r else st k'

/-- `checkRateLimit(clientId, config)` at time `now`.  `doCleanup` is the
outcome of the `Math.random() < 0.01` draw.  In the denial branch
`record.resetTime - now ≥ 0` holds, and `Math.ceil(d / 1000)` of the
non-negative difference is `(d + 999) / 1000` in integer arithmetic. -/
def checkRateLimit (clientId : List Char) (cfg : RateLimitConfig) (now : Nat)
    (doCleanup : Bool) (st : RateStore) : RateLimitResult × RateStore :=
  let st1 := if doCleanup then cleanupExpiredEntries now st else st
  let key := rlKey clientId cfg
  match st1 key with
  | none =>
    ({ allowed := true, remaining := (cfg.maxRequests : Int) - 1,
       resetTime := now + cfg.windowMs, retryAfter := none },
     setStore st1 key ⟨1, now + cfg.windowMs⟩)
  | some record =>
    if record.resetTime < now then
      ({ allowed := true, remaining := (cfg.maxRequests : Int) - 1,
         resetTime := now + cfg.windowMs, retryAfter := none },
       setStore st1 key ⟨1, now + cfg.windowMs⟩)
    else if cfg.maxRequests ≤ record.count then
      ({ allowed := false, remaining := 0, resetTime := record.resetTime,
         retryAfter := some ((record.resetTime - now + 999) / 1000) }, st1)
    else
      ({ allowed := true,
         remaining := (cfg.maxRequests : Int) - ((record.count : Int) + 1),
         resetTime := record.resetTime, retryAfter := none },
       setStore st1 key ⟨record.count + 1, record.resetTime⟩)

/-- Iterate `checkRateLimit` for one `(clientId, config)` pair over a list
of `(now, doCleanup)` call descriptions, collecting the results. -/
def runRL (clientId : List Char) (cfg : RateLimitConfig) :
    RateStore → List (Nat × Bool) → List RateLimitResult × RateStore
  | st, [] => ([], st)
  | st, (t, b) :: rest =>
    let p := checkRateLimit clientId cfg t b st
    let q := runRL clientId cfg p.2 rest
    (p.1 :: q.1, q.2)

/-- One call of an arbitrary interleaved history. -/
structure RLCall where
  clientId : List Char
  cfg : RateLimitConfig
  now : Nat
  doCleanup : Bool

def runAllStore : RateStore → List RLCall → RateStore
  | st, [] => st
  | st, c :: rest => runAllStore (checkRateLimit c.clientId c.cfg c.now c.doCleanup st).2 rest

/-- The request headers read by `getClientId`. -/
structure RequestHeaders where
  xForwardedFor : Option String := none
  cfConnectingIp : Option String := none
  xRealIp : Option String := none

/-- `s.split(',')[0]`: the characters before the first comma. -/
def jsSplitHead (s : String) : String :=
  String.mk (s.data.takeWhile (fun c => c ≠ ','))

/-- `getClientId`: first truthy header among `x-forwarded-for` (first
comma-separated entry, trimmed), `cf-connecting-ip`, `x-real-ip`;
otherwise the literal `'unknown'`. -/
def getClientId (h : RequestHeaders) : String :=
  if truthyStr h.xForwardedFor then jsTrim (jsSplitHead (h.xForwardedFor.getD ("")))
  else if truthyStr h.cfConnectingIp then h.cfConnectingIp.getD ("")
  else if truthyStr h.xRealIp then h.xRealIp.getD ("")
  else ("unknown")

/-- Expected result of the `i`-th in-window call (`p = (i, now)`, window
reset at `R`), per the specification's description of `checkRateLimit`. -/
def c1Step (cfg : RateLimitConfig) (R : Nat) (p : Nat × Nat) : RateLimitResult :=
  if p.1 < cfg.maxRequests then
    { allowed := true, remaining := (cfg.maxRequests : Int) - ((p.1 : Int) + 1),
      resetTime := R, retryAfter := none }
  else
    { allowed := false, remaining := 0, resetTime := R,
      retryAfter := some ((R - p.2 + 999) / 1000) }

/-- The store invariant of the fixed-window limiter: every reachable
record has `1 ≤ count ≤ maxRequests`, where `maxRequests` is the value
encoded in the record's key. -/
def RLInv (st : RateStore) : Prop :=
  ∀ cid cfg r, st (rlKey cid cfg) = some r → 1 ≤ r.count ∧ r.count ≤ cfg.maxRequests

/-- The payload `{name: 'A', attending: 'NOT_ATTENDING', additionalGuests: [{name: 'B'}]}`. -/
def c3payload : RawRSVPFormData :=
  { name := some ("A"), attending := some ("NOT_ATTENDING"),
    additionalGuests := some [{ name := some ("B") }] }

/-- A submission of 20 additional guests whose first guest has no name. -/
def c6cxPayload : RawRSVPFormData :=
  { name := some ("A"), attending := some ("ATTENDING"),
    additionalGuests := some (List.replicate 20 {}) }

/-- A submission of 20 validly-named additional guests. -/
def c6wPayload : RawRSVPFormData :=
  { name := some ("A"), attending := some ("ATTENDING"),
    additionalGuests := some (List.replicate 20 { name := some ("B") }) }

theorem dropWhile_sub (p : Char → Bool) (l : List Char) :
    List.Sublist (l.dropWhile p) l := by
  induction l with
  | nil => simp
  | cons c rest ih =>
    by_cases h : p c
    · simp only [List.dropWhile, h]
      exact ih.trans (List.sublist_cons_self c rest)
    · simp [List.dropWhile, h]

theorem matchHandler?_spec {l tail : List Char} (h : matchHandler? l = some tail) :
    tail.length + 3 ≤ l.length ∧ List.Sublist tail l := by
  match l with
  | [] => simp [matchHandler?] at h
  | [c1] => simp [matchHandler?] at h
  | [c1, c2] => simp [matchHandler?] at h
  | c1 :: c2 :: r1 :: rest =>
    rw [matchHandler?] at h
    have hsub : List.Sublist (((r1 :: rest).dropWhile isWordChar).dropWhile isJsSpace)
        (r1 :: rest) := (dropWhile_sub _ _).trans (dropWhile_sub _ _)
    revert h hsub
    cases hd : ((r1 :: rest).dropWhile isWordChar).dropWhile isJsSpace with
    | nil => intro h _; split at h <;> exact absurd h (by simp)
    | cons x xs =>
      intro h hsub
      split at h
      · split at h
        · rename_i x' tail' hx
          injection hx with hx1 hx2
          subst hx1; subst hx2
          by_cases hx : x = '='
          · rw [if_pos hx] at h
            have hxs : xs = tail := by injection h
            subst hxs; subst hx
            have hlen := hsub.length_le
            simp only [List.length_cons] at hlen ⊢
            refine ⟨by omega, ?_⟩
            have h1 : List.Sublist xs ('=' :: xs) := List.sublist_cons_self _ _
            have h2 : List.Sublist xs (r1 :: rest) := h1.trans hsub
            exact (h2.trans (List.sublist_cons_self c2 (r1 :: rest))).trans
              (List.sublist_cons_self c1 (c2 :: r1 :: rest))
          · rw [if_neg hx] at h; exact absurd h (by simp)
        · exact absurd h (by simp)
      · exact absurd h (by simp)

theorem stripJsProtoGo_sublist (fuel : Nat) (l : List Char) :
    List.Sublist (stripJsProtoGo fuel l) l := by
  induction fuel generalizing l with
  | zero => cases l <;> simp [stripJsProtoGo]
  | succ f ih =>
    cases l with
    | nil => simp [stripJsProtoGo]
    | cons c rest =>
      rw [stripJsProtoGo]
      split
      · exact ((ih _).trans (List.drop_sublist 10 rest)).trans
          (List.sublist_cons_self c rest)
      · exact (ih rest).cons₂ c

theorem stripHandlersGo_sublist (fuel : Nat) (l : List Char) :
    List.Sublist (stripHandlersGo fuel l) l := by
  induction fuel generalizing l with
  | zero => cases l <;> simp [stripHandlersGo]
  | succ f ih =>
    cases l with
    | nil => simp [stripHandlersGo]
    | cons c rest =>
      rw [stripHandlersGo]
      cases hm : matchHandler? (c :: rest) with
      | some tail => exact (ih tail).trans (matchHandler?_spec hm).2
      | none => exact (ih rest).cons₂ c

theorem stripJsProtoGo_id {l : List Char} (h : containsJsProto l = false) :
    ∀ fuel, l.length ≤ fuel → stripJsProtoGo fuel l = l := by
  induction l with
  | nil => intro fuel _; cases fuel <;> rfl
  | cons c rest ih =>
    intro fuel hf
    cases fuel with
    | zero => simp at hf
    | succ f =>
      rw [containsJsProto, Bool.or_eq_false_iff] at h
      rw [stripJsProtoGo, if_neg (by simp [h.1])]
      rw [ih h.2 f (by simpa using Nat.lt_succ_iff.mp (Nat.lt_of_lt_of_le (Nat.lt_succ_self _) hf))]

theorem stripHandlersGo_id {l : List Char} (h : containsHandlerPat l = false) :
    ∀ fuel, l.length ≤ fuel → stripHandlersGo fuel l = l := by
  induction l with
  | nil => intro fuel _; cases fuel <;> rfl
  | cons c rest ih =>
    intro fuel hf
    cases fuel with
    | zero => simp at hf
    | succ f =>
      rw [containsHandlerPat, Bool.or_eq_false_iff] at h
      rw [stripHandlersGo]
      cases hm : matchHandler? (c :: rest) with
      | some tail => rw [hm] at h; simp [Option.isSome] at h
      | none =>
        rw [ih h.2 f (by simp only [List.length_cons] at hf; omega)]

theorem stripJsProtoL_sublist (l : List Char) : List.Sublist (stripJsProtoL l) l :=
  stripJsProtoGo_sublist _ _

theorem stripHandlersL_sublist (l : List Char) : List.Sublist (stripHandlersL l) l :=
  stripHandlersGo_sublist _ _

theorem stripJsProtoL_id {l : List Char} (h : containsJsProto l = false) :
    stripJsProtoL l = l := stripJsProtoGo_id h _ (Nat.le_refl _)

theorem stripHandlersL_id {l : List Char} (h : containsHandlerPat l = false) :
    stripHandlersL l = l := stripHandlersGo_id h _ (Nat.le_refl _)

theorem sanitizeInputL_length (l : List Char) : (sanitizeInputL l).length ≤ 1000 := by
  unfold sanitizeInputL
  have h1 := (stripHandlersL_sublist (stripJsProtoL
    (((jsTrimL l).take 1000).filter (fun c => !(c == '<' || c == '>'))))).length_le
  have h2 := (stripJsProtoL_sublist
    (((jsTrimL l).take 1000).filter (fun c => !(c == '<' || c == '>')))).length_le
  have h3 := (List.filter_sublist ((jsTrimL l).take 1000)
    (p := fun c => !(c == '<' || c == '>'))).length_le
  have h4 : ((jsTrimL l).take 1000).length ≤ 1000 := by
    simp [List.length_take]
  omega

theorem sanitizeInputL_noAngle (l : List Char) :
    ∀ c ∈ sanitizeInputL l, !(c == '<' || c == '>') := by
  intro c hc
  unfold sanitizeInputL at hc
  have h1 := (stripHandlersL_sublist _).subset hc
  have h2 := (stripJsProtoL_sublist _).subset h1
  exact (List.mem_filter.mp h2).2

theorem digitChar_inj : ∀ a, a < 10 → ∀ b, b < 10 → digitChar a = digitChar b → a = b := by
  decide

theorem digitChar_ne_colon : ∀ a, a < 10 → digitChar a ≠ ':' := by decide

theorem toDigitsRevGo_eq_digits :
    ∀ f n, n ≤ f → 1 ≤ n → toDigitsRevGo f n = (Nat.digits 10 n).map digitChar := by
  intro f
  induction f with
  | zero => intro n h1 h2; omega
  | succ f ih =>
    intro n h1 h2
    rw [toDigitsRevGo]
    by_cases h10 : n < 10
    · rw [if_pos h10, Nat.digits_def' (by norm_num : 1 < 10) h2]
      rw [Nat.mod_eq_of_lt h10, Nat.div_eq_of_lt h10]
      simp
    · rw [if_neg h10, Nat.digits_def' (by norm_num : 1 < 10) h2]
      have hlt : n / 10 < n := Nat.div_lt_self (by omega) (by norm_num)
      have h1' : 1 ≤ n / 10 := by
        have : 10 / 10 ≤ n / 10 := Nat.div_le_div_right (by omega)
        simpa using this
      rw [ih (n / 10) (by omega) h1']
      simp

theorem map_digitChar_inj :
    ∀ l1 l2 : List Nat, (∀ d ∈ l1, d < 10) → (∀ d ∈ l2, d < 10) →
      l1.map digitChar = l2.map digitChar → l1 = l2 := by
  intro l1
  induction l1 with
  | nil => intro l2 _ _ h; cases l2 <;> simp_all
  | cons d t ih =>
    intro l2 h1 h2 h
    cases l2 with
    | nil => simp at h
    | cons d' t' =>
      simp only [List.map_cons, List.cons.injEq] at h
      have hd : d = d' :=
        digitChar_inj d (h1 d (by simp)) d' (h2 d' (by simp)) h.1
      rw [hd, ih t' (fun x hx => h1 x (by simp [hx])) (fun x hx => h2 x (by simp [hx])) h.2]

theorem natReprL_pos_eq {n : Nat} (h : 1 ≤ n) :
    natReprL n = ((Nat.digits 10 n).map digitChar).reverse := by
  rw [natReprL, toDigitsRevGo_eq_digits n n (Nat.le_refl n) h]

theorem natReprL_inj {n m : Nat} (h : natReprL n = natReprL m) : n = m := by
  rcases Nat.eq_zero_or_pos n with hn | hn
  · rcases Nat.eq_zero_or_pos m with hm | hm
    · omega
    · subst hn
      rw [natReprL_pos_eq hm] at h
      have h' : ['0'] = (Nat.digits 10 m).map digitChar := by
        have := congrArg List.reverse h
        simpa [natReprL, toDigitsRevGo] using this
      have : ([0] : List Nat).map digitChar = (Nat.digits 10 m).map digitChar := by
        simpa using h'
      have hd := map_digitChar_inj [0] (Nat.digits 10 m) (by simp)
        (fun d hd => Nat.digits_lt_base (by norm_num) hd) this
      have := Nat.ofDigits_digits 10 m
      rw [← hd] at this
      simp [Nat.ofDigits] at this
      omega
  · rcases Nat.eq_zero_or_pos m with hm | hm
    · subst hm
      rw [natReprL_pos_eq hn] at h
      have h' : (Nat.digits 10 n).map digitChar = ['0'] := by
        have := congrArg List.reverse h
        simpa [natReprL, toDigitsRevGo] using this
      have : (Nat.digits 10 n).map digitChar = ([0] : List Nat).map digitChar := by
        simpa using h'
      have hd := map_digitChar_inj (Nat.digits 10 n) [0]
        (fun d hd => Nat.digits_lt_base (by norm_num) hd) (by simp) this
      have := Nat.ofDigits_digits 10 n
      rw [hd] at this
      simp [Nat.ofDigits] at this
      omega
    · rw [natReprL_pos_eq hn, natReprL_pos_eq hm] at h
      have h' := List.reverse_injective h
      have hd := map_digitChar_inj (Nat.digits 10 n) (Nat.digits 10 m)
        (fun d hd => Nat.digits_lt_base (by norm_num) hd)
        (fun d hd => Nat.digits_lt_base (by norm_num) hd) h'
      have h1 := Nat.ofDigits_digits 10 n
      have h2 := Nat.ofDigits_digits 10 m
      rw [hd] at h1
      omega

theorem natReprL_no_colon (n : Nat) : ∀ c ∈ natReprL n, c ≠ ':' := by
  rcases Nat.eq_zero_or_pos n with hn | hn
  · subst hn; intro c hc; simp [natReprL, toDigitsRevGo] at hc; subst hc; decide
  · rw [natReprL_pos_eq hn]
    intro c hc
    rw [List.mem_reverse, List.mem_map] at hc
    obtain ⟨d, hd, rfl⟩ := hc
    exact digitChar_ne_colon d (Nat.digits_lt_base (by norm_num) hd)

theorem flatMap_byteToHex_length (bytes : List (Fin 256)) :
    (bytes.flatMap byteToHex).length = 2 * bytes.length := by
  induction bytes with
  | nil => rfl
  | cons b t ih =>
    simp only [List.flatMap_cons, List.length_append, ih, byteToHex,
      List.length_cons, List.length_nil]
    omega

theorem hexEncode_length (bytes : List (Fin 256)) :
    (hexEncode bytes).length = 2 * bytes.length :=
  flatMap_byteToHex_length bytes

/-- Claim C4 (code bug): the display escaper `sanitizeHTML` is supposed to
HTML-entity-encode `&`, `<`, `>`, `"`, `'`, `/`, but as written the
replacement strings for the first four are the characters themselves, so
raw `&`, `<`, `>` and `"` pass straight through; only `'` and `/` are
actually encoded.  Evaluated at the failing inputs. -/
theorem c4_sanitizeHTML_raw_passthrough :
    sanitizeHTML ("<script>") = ("<script>") ∧
    sanitizeHTML ("&") = ("&") ∧
    sanitizeHTML ("\"") = ("\"") ∧
    '<' ∈ (sanitizeHTML ("<script>")).data ∧
    '>' ∈ (sanitizeHTML ("<script>")).data ∧
    '&' ∈ (sanitizeHTML ("&")).data ∧
    sanitizeHTML (String.mk [apos]) = ("&#x27;") ∧
    sanitizeHTML ("/") = ("&#x2F;") := by decide

/-- Claim C5, counterexample: `sanitizeInput` is not idempotent.  Removing
`javascript:` occurrences can splice a new occurrence together, so one
pass leaves `javascript:` behind and a second pass removes it. -/
theorem c5_sanitizeInput_not_idempotent :
    sanitizeInput ("javajavascript:script:") = ("javascript:") ∧
    sanitizeInput (sanitizeInput ("javajavascript:script:")) = ("") ∧
    sanitizeInput (sanitizeInput ("javajavascript:script:")) ≠
      sanitizeInput ("javajavascript:script:") := by decide

/-- Claim C5, amended: `sanitizeInput` is idempotent on every input whose
sanitized output is already trimmed and contains no residual
`javascript:` occurrence and no residual event-handler pattern (the
length cap and the angle-bracket strip are always stable after one
pass); in general it is not idempotent. -/
theorem sanitizeInputL_idem_core (l : List Char)
    (h1 : jsTrimL (sanitizeInputL l) = sanitizeInputL l)
    (h2 : containsJsProto (sanitizeInputL l) = false)
    (h3 : containsHandlerPat (sanitizeInputL l) = false) :
    sanitizeInputL (sanitizeInputL l) = sanitizeInputL l := by
  conv_lhs => rw [sanitizeInputL]
  rw [h1, List.take_of_length_le (sanitizeInputL_length l),
    List.filter_eq_self.mpr (sanitizeInputL_noAngle l),
    stripJsProtoL_id h2, stripHandlersL_id h3]

/-- Claim C5, amended (see the block comment above
`sanitizeInputL_idem_core`): `sanitizeInput` is idempotent on every input
whose sanitized output is already trimmed and free of residual
`javascript:` and event-handler occurrences. -/
theorem c5_sanitizeInput_idempotent_on_stable (x : String)
    (h1 : jsTrimL ((sanitizeInput x).data) = (sanitizeInput x).data)
    (h2 : containsJsProto ((sanitizeInput x).data) = false)
    (h3 : containsHandlerPat ((sanitizeInput x).data) = false) :
    sanitizeInput (sanitizeInput x) = sanitizeInput x :=
  congrArg String.mk (sanitizeInputL_idem_core x.data h1 h2 h3)

/-- Claim C5, witness: the amended idempotence theorem applied at a
concrete stable input. -/
theorem c5_sanitizeInput_idempotent_witness :
    containsJsProto ((sanitizeInput ("hello world")).data) = false ∧
    sanitizeInput (sanitizeInput ("hello world")) = sanitizeInput ("hello world") :=
  ⟨by decide,
   c5_sanitizeInput_idempotent_on_stable ("hello world") (by decide) (by decide) (by decide)⟩

/-- Claim C9: a generated CSRF token is the hex encoding of 32 random
bytes, hence 64 characters long, while `verifyFormCSRFToken` and the
middleware length check accept exactly the strings of length
`CSRF_CONFIG.tokenLength = 32`; so every issue/verify round trip through
`verifyFormCSRFToken` fails. -/
theorem c9_issue_verify_length_mismatch (bytes : List (Fin 256))
    (h : bytes.length = CSRF_tokenLength) :
    ((generateCSRFToken bytes 0).token).length = 64 ∧
    (∀ now, verifyFormCSRFToken ((generateCSRFToken bytes now).token) = false) ∧
    (∀ now, csrfMiddlewareLengthOk ((generateCSRFToken bytes now).token) = false) ∧
    (∀ t, verifyFormCSRFToken t = true → t.length = CSRF_tokenLength) ∧
    (∀ t, csrfMiddlewareLengthOk t = true → t.length = CSRF_tokenLength) := by
  have hlen : (hexEncode bytes).length = 64 := by
    rw [hexEncode_length, h]; rfl
  refine ⟨hlen, ?_, ?_, ?_, ?_⟩
  · intro now
    show verifyFormCSRFToken (hexEncode bytes) = false
    simp [verifyFormCSRFToken, hlen, CSRF_tokenLength]
  · intro now
    show csrfMiddlewareLengthOk (hexEncode bytes) = false
    simp [csrfMiddlewareLengthOk, hlen, CSRF_tokenLength]
  · intro t ht
    simp only [verifyFormCSRFToken, Bool.and_eq_true, beq_iff_eq] at ht
    exact ht.2
  · intro t ht
    simpa only [csrfMiddlewareLengthOk, beq_iff_eq] using ht

/-- Claim C9, witness: the mismatch at a concrete byte array. -/
theorem c9_issue_verify_length_mismatch_witness :
    ((generateCSRFToken (List.replicate 32 (0 : Fin 256)) 0).token).length = 64 ∧
    verifyFormCSRFToken ((generateCSRFToken (List.replicate 32 (0 : Fin 256)) 7).token) = false :=
  ⟨(c9_issue_verify_length_mismatch (List.replicate 32 (0 : Fin 256)) (by decide)).1,
   (c9_issue_verify_length_mismatch (List.replicate 32 (0 : Fin 256)) (by decide)).2.1 7⟩

/-- Claim C10, counterexample: an `x-forwarded-for` header that is present
but empty is falsy, so `getClientId` falls through to `x-real-ip` instead
of returning the (empty) first forwarded entry as the claim states. -/
theorem c10_getClientId_counterexample :
    getClientId { xForwardedFor := some (""), xRealIp := some ("1.2.3.4") } = ("1.2.3.4") ∧
    jsTrim (jsSplitHead ("")) = ("") ∧
    (("1.2.3.4") : String) ≠ ("") := by decide

/-- Claim C10, amended: `getClientId` returns the first comma-separated
entry (trimmed) of `x-forwarded-for` when that header is present and
non-empty (truthy); otherwise `cf-connecting-ip` when truthy; otherwise
`x-real-ip` when truthy; otherwise the constant `'unknown'` — so all
requests carrying no truthy identity header share the single rate-limit
key derived from `'unknown'` for each config. -/
theorem c10_getClientId_spec :
    (∀ h : RequestHeaders, truthyStr h.xForwardedFor = true →
        getClientId h = jsTrim (jsSplitHead (h.xForwardedFor.getD ("")))) ∧
    (∀ h : RequestHeaders, truthyStr h.xForwardedFor = false →
        truthyStr h.cfConnectingIp = true →
        getClientId h = h.cfConnectingIp.getD ("")) ∧
    (∀ h : RequestHeaders, truthyStr h.xForwardedFor = false →
        truthyStr h.cfConnectingIp = false → truthyStr h.xRealIp = true →
        getClientId h = h.xRealIp.getD ("")) ∧
    (∀ h : RequestHeaders, truthyStr h.xForwardedFor = false →
        truthyStr h.cfConnectingIp = false → truthyStr h.xRealIp = false →
        getClientId h = ("unknown")) ∧
    (∀ (h h' : RequestHeaders) (cfg : RateLimitConfig),
        truthyStr h.xForwardedFor = false → truthyStr h.cfConnectingIp = false →
        truthyStr h.xRealIp = false → truthyStr h'.xForwardedFor = false →
        truthyStr h'.cfConnectingIp = false → truthyStr h'.xRealIp = false →
        getClientId h = getClientId h' ∧
        rlKey ((getClientId h).data) cfg = rlKey (("unknown").data) cfg) := by
  refine ⟨?_, ?_, ?_, ?_, ?_⟩
  · intro h h1; simp [getClientId, h1]
  · intro h h1 h2; simp [getClientId, h1, h2]
  · intro h h1 h2 h3; simp [getClientId, h1, h2, h3]
  · intro h h1 h2 h3; simp [getClientId, h1, h2, h3]
  · intro h h' cfg h1 h2 h3 h1' h2' h3'
    constructor
    · simp [getClientId, h1, h2, h3, h1', h2', h3']
    · simp [getClientId, h1, h2, h3]

/-- Claim C10, witness: the amended characterization applied at concrete
headers. -/
theorem c10_getClientId_spec_witness :
    getClientId { xForwardedFor := some ("9.9.9.9, 1.1.1.1") } =
      jsTrim (jsSplitHead ((some ("9.9.9.9, 1.1.1.1")).getD (""))) ∧
    getClientId { cfConnectingIp := some ("2.2.2.2") } = ((some ("2.2.2.2")).getD ("")) ∧
    getClientId {} = ("unknown") :=
  ⟨c10_getClientId_spec.1 _ (by decide),
   c10_getClientId_spec.2.1 _ (by decide) (by decide),
   c10_getClientId_spec.2.2.2.1 _ (by decide) (by decide) (by decide)⟩

/-- Claim C3, counterexample: the payload
`{name: 'A', attending: 'NOT_ATTENDING', additionalGuests: [{name: 'B'}]}`
does NOT validate: the cross-field rule records the guest error
`'Additional guests can only be added when attending'`, so `isValid` is
`false`, not `true` as claimed. -/
theorem c3_not_attending_counterexample :
    (validateRSVPData c3payload true).isValid = false := by decide

/-- Claim C3, amended: on the declining payload the sanitized
`additionalGuests` list is emptied (plus-ones stripped), but the
submission is rejected: `isValid = false` with the attending-restriction
message surfaced under the `additionalGuests` error key. -/
theorem c3_declining_strips_guests :
    (validateRSVPData c3payload true).sanitizedData.additionalGuests = [] ∧
    (validateRSVPData c3payload true).isValid = false ∧
    (validateRSVPData c3payload true).errors.additionalGuests =
      some guestsOnlyWhenAttendingMsg := by decide

theorem rsvpSanitizedGuests_length_le (data : RawRSVPFormData) :
    (rsvpSanitizedGuests data).length ≤ MAX_ADDITIONAL_GUESTS := by
  unfold rsvpSanitizedGuests
  cases data.additionalGuests with
  | none => simp
  | some gs =>
    simp only [List.length_map, List.length_take]
    exact min_le_left _ _

/-- Claim C6, counterexample: with 20 submitted guests whose first guest
has no name, the error surfaced under the `additionalGuests` key is the
first collected guest error (`'Guest 1 name is required'`), not the
guest-count cap message the claim says is surfaced there. -/
theorem c6_guest_cap_counterexample :
    MAX_ADDITIONAL_GUESTS < rawGuestCount c6cxPayload ∧
    (validateRSVPData c6cxPayload true).errors.additionalGuests =
      some ("Guest 1 name is required") ∧
    (validateRSVPData c6cxPayload true).errors.additionalGuests ≠
      some guestCountErrorMessage := by decide

/-- Claim C6, amended: for every payload submitting more than 19
additional guests, the guest-count cap violation is recorded among the
collected guest errors, the first collected guest error is surfaced under
the `additionalGuests` key (so the submission is rejected), and the
sanitized output retains at most 19 additional-guest entries. -/
theorem c6_guest_cap (data : RawRSVPFormData) (b : Bool)
    (h : MAX_ADDITIONAL_GUESTS < rawGuestCount data) :
    guestCountErrorMessage ∈ rsvpGuestErrors data ∧
    (validateRSVPData data b).errors.additionalGuests = (rsvpGuestErrors data).head? ∧
    (validateRSVPData data b).errors.additionalGuests ≠ none ∧
    (validateRSVPData data b).isValid = false ∧
    (validateRSVPData data b).sanitizedData.additionalGuests.length ≤
      MAX_ADDITIONAL_GUESTS := by
  have hmem : guestCountErrorMessage ∈ rsvpGuestErrors data := by
    unfold rsvpGuestErrors
    rw [if_pos h]
    simp
  have hhead : (validateRSVPData data b).errors.additionalGuests =
      (rsvpGuestErrors data).head? := by
    simp only [validateRSVPData]
  obtain ⟨x, t, hxt⟩ : ∃ x t, rsvpGuestErrors data = x :: t := by
    cases hge : rsvpGuestErrors data with
    | nil => rw [hge] at hmem; simp at hmem
    | cons x t => exact ⟨x, t, rfl⟩
  have hsome : (rsvpGuestErrors data).head? = some x := by rw [hxt]; rfl
  refine ⟨hmem, hhead, ?_, ?_, ?_⟩
  · rw [hhead, hsome]; simp
  · have hval : (validateRSVPData data b).isValid =
        ((validateRSVPData data b).errors).isEmpty := by
      simp only [validateRSVPData]
    have hag : (validateRSVPData data b).errors.additionalGuests = some x := by
      rw [hhead, hsome]
    rw [hval]
    unfold RSVPErrors.isEmpty
    rw [hag]
    simp
  · have hag : (validateRSVPData data b).sanitizedData.additionalGuests =
        (if rsvpStatus data ≠ GuestStatus.ATTENDING ∧ 0 < (rsvpSanitizedGuests data).length
         then [] else rsvpSanitizedGuests data) := by
      simp only [validateRSVPData]
    rw [hag]
    split
    · simp
    · exact rsvpSanitizedGuests_length_le data

/-- Claim C6, witness: the amended theorem applied to a concrete payload
of 20 validly-named guests. -/
theorem c6_guest_cap_witness :
    guestCountErrorMessage ∈ rsvpGuestErrors c6wPayload ∧
    (validateRSVPData c6wPayload true).isValid = false ∧
    (validateRSVPData c6wPayload true).sanitizedData.additionalGuests.length ≤
      MAX_ADDITIONAL_GUESTS :=
  ⟨(c6_guest_cap c6wPayload true (by decide)).1,
   (c6_guest_cap c6wPayload true (by decide)).2.2.2.1,
   (c6_guest_cap c6wPayload true (by decide)).2.2.2.2⟩

/-- Claim C8: the origin check requires, in production, a truthy `Origin`
or `Referer` header; with a configured non-empty allow-list it passes
only when the derived origin is listed; outside production it always
passes. -/
theorem c8_verifyRequestOrigin_spec :
    (∀ (env : Option String) (urlO : String → String),
        verifyRequestOrigin ("production") env urlO none none = false) ∧
    (∀ (env : Option String) (urlO : String → String) (origin referer : Option String),
        allowedOriginsList env ≠ [] →
        verifyRequestOrigin ("production") env urlO origin referer = true →
        (allowedOriginsList env).contains (derivedOrigin urlO origin referer) = true) ∧
    (∀ (nodeEnv : String) (env : Option String) (urlO : String → String)
        (origin referer : Option String), nodeEnv ≠ ("production") →
        verifyRequestOrigin nodeEnv env urlO origin referer = true) := by
  refine ⟨?_, ?_, ?_⟩
  · intro env urlO
    unfold verifyRequestOrigin
    rw [if_pos rfl, if_pos (by simp [truthyStr])]
  · intro env urlO origin referer hne htrue
    unfold verifyRequestOrigin at htrue
    rw [if_pos rfl] at htrue
    by_cases h1 : ¬ truthyStr origin ∧ ¬ truthyStr referer
    · rw [if_pos h1] at htrue; exact absurd htrue (by simp)
    · rw [if_neg h1] at htrue
      by_cases h2 : 0 < (allowedOriginsList env).length ∧
          ¬ (allowedOriginsList env).contains (derivedOrigin urlO origin referer)
      · rw [if_pos h2] at htrue; exact absurd htrue (by simp)
      · have hlen : 0 < (allowedOriginsList env).length := List.length_pos.mpr hne
        by_contra hc
        exact h2 ⟨hlen, by simpa using hc⟩
  · intro nodeEnv env urlO origin referer hne
    unfold verifyRequestOrigin
    rw [if_neg hne]

/-- Claim C8, witness: the three parts at concrete environments and
headers. -/
theorem c8_verifyRequestOrigin_witness :
    verifyRequestOrigin ("production") (some ("https://a.com")) (fun _ => ("")) none none
      = false ∧
    (allowedOriginsList (some ("https://a.com"))).contains
      (derivedOrigin (fun _ => ("")) (some ("https://a.com")) none) = true ∧
    verifyRequestOrigin ("test") none (fun _ => ("")) none none = true :=
  ⟨c8_verifyRequestOrigin_spec.1 _ _,
   c8_verifyRequestOrigin_spec.2.1 _ _ _ _ (by decide) (by decide),
   c8_verifyRequestOrigin_spec.2.2 _ _ _ _ _ (by decide)⟩

/-- Claim C2: a token absent from the registry never verifies; a freshly
issued token verifies (leaving the registry unchanged, so repeat
verification stays valid) at every time up to its expiry; and verifying a
stored token whose expiry has passed deletes its entry and fails. -/
theorem c2_csrf_registry_spec :
    (∀ (reg : TokenRegistry) (t : String) (now : Nat),
        reg t = none → protectorVerify reg t now = (false, reg)) ∧
    (∀ (reg : TokenRegistry) (bytes : List (Fin 256)) (now0 now : Nat),
        bytes.length = CSRF_tokenLength →
        now ≤ now0 + CSRF_expirationMinutes * 60 * 1000 →
        protectorVerify (protectorGenerate reg bytes now0).2
            (protectorGenerate reg bytes now0).1 now =
          (true, (protectorGenerate reg bytes now0).2)) ∧
    (∀ (reg : TokenRegistry) (t : String) (stored : CSRFToken) (now : Nat),
        reg t = some stored → stored.expires < now →
        protectorVerify reg t now = (false, fun k => if k = t then none else reg k)) := by
  refine ⟨?_, ?_, ?_⟩
  · intro reg t now h
    unfold protectorVerify
    rw [h]
  · intro reg bytes now0 now hlen hnow
    have hne : hexEncode bytes ≠ ("") := by
      intro he
      have h64 := hexEncode_length bytes
      rw [he, hlen] at h64
      exact absurd h64 (by decide)
    have hreg : (protectorGenerate reg bytes now0).2 ((protectorGenerate reg bytes now0).1) =
        some (generateCSRFToken bytes now0) := by
      show (if (generateCSRFToken bytes now0).token = (generateCSRFToken bytes now0).token
            then some (generateCSRFToken bytes now0) else _) = _
      rw [if_pos rfl]
    have hver : verifyCSRFToken (generateCSRFToken bytes now0).token
        (generateCSRFToken bytes now0).expires now = true := by
      unfold verifyCSRFToken
      rw [if_neg]
      push_neg
      exact ⟨hne, by
        show now ≤ (generateCSRFToken bytes now0).expires
        exact hnow⟩
    unfold protectorVerify
    rw [hreg]
    simp [hver]
  · intro reg t stored now h hexp
    have hver : verifyCSRFToken stored.token stored.expires now = false := by
      unfold verifyCSRFToken
      rw [if_pos (Or.inr hexp)]
    unfold protectorVerify
    rw [h]
    simp [hver]

/-- Claim C2, witness: the registry specification at concrete tokens and
times. -/
theorem c2_csrf_registry_witness :
    protectorVerify emptyRegistry ("x") 0 = (false, emptyRegistry) ∧
    protectorVerify (protectorGenerate emptyRegistry (List.replicate 32 (0 : Fin 256)) 0).2
        (protectorGenerate emptyRegistry (List.replicate 32 (0 : Fin 256)) 0).1 5 =
      (true, (protectorGenerate emptyRegistry (List.replicate 32 (0 : Fin 256)) 0).2) ∧
    protectorVerify (protectorGenerate emptyRegistry (List.replicate 32 (0 : Fin 256)) 0).2
        (protectorGenerate emptyRegistry (List.replicate 32 (0 : Fin 256)) 0).1 9999999 =
      (false, fun k =>
        if k = (protectorGenerate emptyRegistry (List.replicate 32 (0 : Fin 256)) 0).1
        then none
        else (protectorGenerate emptyRegistry (List.replicate 32 (0 : Fin 256)) 0).2 k) :=
  ⟨c2_csrf_registry_spec.1 _ _ _ rfl,
   c2_csrf_registry_spec.2.1 _ _ _ _ (by decide) (by decide),
   c2_csrf_registry_spec.2.2 _ _ (generateCSRFToken (List.replicate 32 (0 : Fin 256)) 0) _
     (by decide) (by decide)⟩

theorem cleanup_none {st : RateStore} {k : List Char} (now : Nat) (h : st k = none) :
    cleanupExpiredEntries now st k = none := by
  simp [cleanupExpiredEntries, h]

theorem cleanup_keep {st : RateStore} {k : List Char} {now : Nat} {r : RateRecord}
    (h : st k = some r) (hr : now ≤ r.resetTime) :
    cleanupExpiredEntries now st k = some r := by
  simp [cleanupExpiredEntries, h, Nat.not_lt.mpr hr]

theorem cleanup_lookup {st : RateStore} {now : Nat} {k : List Char} {r : RateRecord}
    (h : cleanupExpiredEntries now st k = some r) : st k = some r := by
  unfold cleanupExpiredEntries at h
  cases hk : st k with
  | none => rw [hk] at h; simp at h
  | some r0 =>
    rw [hk] at h
    by_cases hlt : r0.resetTime < now
    · simp [hlt] at h
    · simp [hlt] at h; rw [h]

theorem st1_keep {st : RateStore} {k : List Char} {r : RateRecord} {now : Nat} {b : Bool}
    (h : st k = some r) (hr : now ≤ r.resetTime) :
    (if b then cleanupExpiredEntries now st else st) k = some r := by
  cases b with
  | false => simpa using h
  | true => simpa using cleanup_keep h hr

theorem st1_none {st : RateStore} {k : List Char} (now : Nat) (b : Bool)
    (h : st k = none) :
    (if b then cleanupExpiredEntries now st else st) k = none := by
  cases b with
  | false => simpa using h
  | true => simpa using cleanup_none now h

theorem checkRateLimit_create {st : RateStore} {cid : List Char} {cfg : RateLimitConfig}
    (now : Nat) {b : Bool} (h : st (rlKey cid cfg) = none) :
    checkRateLimit cid cfg now b st =
      ({ allowed := true, remaining := (cfg.maxRequests : Int) - 1,
         resetTime := now + cfg.windowMs, retryAfter := none },
       setStore (if b then cleanupExpiredEntries now st else st) (rlKey cid cfg)
         ⟨1, now + cfg.windowMs⟩) := by
  simp only [checkRateLimit]
  rw [st1_none now b h]

theorem checkRateLimit_deny {st : RateStore} {cid : List Char} {cfg : RateLimitConfig}
    {now : Nat} {b : Bool} {c R : Nat}
    (h : st (rlKey cid cfg) = some ⟨c, R⟩) (hnow : now ≤ R) (hc : cfg.maxRequests ≤ c) :
    checkRateLimit cid cfg now b st =
      ({ allowed := false, remaining := 0, resetTime := R,
         retryAfter := some ((R - now + 999) / 1000) },
       if b then cleanupExpiredEntries now st else st) := by
  simp only [checkRateLimit]
  rw [st1_keep (b := b) h (by simpa using hnow)]
  simp [Nat.not_lt.mpr hnow, hc]

theorem checkRateLimit_incr {st : RateStore} {cid : List Char} {cfg : RateLimitConfig}
    {now : Nat} {b : Bool} {c R : Nat}
    (h : st (rlKey cid cfg) = some ⟨c, R⟩) (hnow : now ≤ R) (hc : c < cfg.maxRequests) :
    checkRateLimit cid cfg now b st =
      ({ allowed := true,
         remaining := (cfg.maxRequests : Int) - ((c : Int) + 1),
         resetTime := R, retryAfter := none },
       setStore (if b then cleanupExpiredEntries now st else st) (rlKey cid cfg)
         ⟨c + 1, R⟩) := by
  simp only [checkRateLimit]
  rw [st1_keep (b := b) h (by simpa using hnow)]
  simp [Nat.not_lt.mpr hnow, not_le.mpr hc]

theorem runRL_window_spec (cid : List Char) (cfg : RateLimitConfig) (R : Nat) :
    ∀ (calls : List (Nat × Bool)) (st : RateStore) (c j : Nat),
      st (rlKey cid cfg) = some ⟨c, R⟩ → 1 ≤ c →
      (c < cfg.maxRequests → c = j) →
      (cfg.maxRequests ≤ c → cfg.maxRequests ≤ j) →
      (∀ p ∈ calls, p.1 ≤ R) →
      (runRL cid cfg st calls).1 =
        (List.enumFrom j (calls.map Prod.fst)).map (c1Step cfg R) := by
  intro calls
  induction calls with
  | nil => intro st c j _ _ _ _ _; rfl
  | cons p rest ih =>
    intro st c j hst hc1 hcj hmj hw
    obtain ⟨t, b⟩ := p
    have ht : t ≤ R := hw (t, b) (by simp)
    have hw' : ∀ q ∈ rest, q.1 ≤ R := fun q hq => hw q (by simp [hq])
    by_cases hmaxle : cfg.maxRequests ≤ c
    · have hj : cfg.maxRequests ≤ j := hmj hmaxle
      have hstep := checkRateLimit_deny (b := b) hst ht hmaxle
      have hkeep : (if b then cleanupExpiredEntries t st else st) (rlKey cid cfg) =
          some ⟨c, R⟩ := st1_keep (b := b) hst (by simpa using ht)
      have hrec := ih ((if b then cleanupExpiredEntries t st else st)) c (j + 1) hkeep hc1
        (fun hlt => absurd hlt (not_lt.mpr hmaxle))
        (fun _ => Nat.le_succ_of_le hj) hw'
      simp only [runRL, hstep, hrec, List.map_cons, List.enumFrom, List.map]
      simp [c1Step, not_lt.mpr hj]
    · have hclt : c < cfg.maxRequests := not_le.mp hmaxle
      have hj : c = j := hcj hclt
      subst hj
      have hstep := checkRateLimit_incr (b := b) hst ht hclt
      have hkeep : setStore (if b then cleanupExpiredEntries t st else st) (rlKey cid cfg)
          ⟨c + 1, R⟩ (rlKey cid cfg) = some ⟨c + 1, R⟩ := by simp [setStore]
      have hrec := ih _ (c + 1) (c + 1) hkeep (Nat.le_succ_of_le hc1)
        (fun _ => rfl) (fun h => h) hw'
      simp only [runRL, hstep, hrec, List.map_cons, List.enumFrom, List.map]
      simp [c1Step, hclt]

/-- Claim C1, counterexample: with `maxRequests = 1` and `windowMs = 1000`,
two calls at times `0` and `1000` are both inside the window the code
itself recognizes (its reset test is `now > windowResetAt`), yet the
denied second call reports `retryAfter = 0`, not `retryAfter > 0` as the
claim states. -/
theorem c1_retryAfter_zero_at_boundary :
    (1000 : Nat) ≤ 0 + 1000 ∧
    ((runRL (("a").data) ⟨1000, 1⟩ emptyRateStore [(0, false), (1000, false)]).1.map
      (fun r => (r.allowed, r.remaining, r.retryAfter)))
      = [(true, 0, none), (false, 0, some 0)] := by decide

/-- Claim C1, amended: starting from a store with no record for the key,
the first call at `t0` and any further calls at times `≤ t0 + windowMs`
behave as the fixed-window specification: the `i`-th call is allowed
exactly when `i < maxRequests` (with `remaining = maxRequests - (i+1)`
and `resetTime = t0 + windowMs`), and each later call is denied with
`remaining = 0` and `retryAfter = ceil((windowResetAt - now)/1000)`,
which is positive whenever `now < windowResetAt` (and `0` at
`now = windowResetAt`). -/
theorem c1_fixed_window (cid : List Char) (cfg : RateLimitConfig) (st0 : RateStore)
    (t0 : Nat) (b0 : Bool) (calls : List (Nat × Bool))
    (hmax : 1 ≤ cfg.maxRequests)
    (h0 : st0 (rlKey cid cfg) = none)
    (hw : ∀ p ∈ calls, p.1 ≤ t0 + cfg.windowMs) :
    (runRL cid cfg st0 ((t0, b0) :: calls)).1 =
      (List.enumFrom 0 (t0 :: calls.map Prod.fst)).map (c1Step cfg (t0 + cfg.windowMs)) ∧
    (∀ i t, cfg.maxRequests ≤ i → t < t0 + cfg.windowMs →
        ∃ k, (c1Step cfg (t0 + cfg.windowMs) (i, t)).retryAfter = some k ∧ 0 < k) := by
  constructor
  · have hstep := checkRateLimit_create t0 (b := b0) h0
    have hkeep : setStore (if b0 then cleanupExpiredEntries t0 st0 else st0) (rlKey cid cfg)
        ⟨1, t0 + cfg.windowMs⟩ (rlKey cid cfg) = some ⟨1, t0 + cfg.windowMs⟩ := by
      simp [setStore]
    have hrec := runRL_window_spec cid cfg (t0 + cfg.windowMs) calls _ 1 1 hkeep
      (Nat.le_refl 1) (fun _ => rfl) (fun h => h) hw
    have h0max : (0 : Nat) < cfg.maxRequests := hmax
    simp only [runRL, hstep, hrec, List.map_cons, List.enumFrom, List.map]
    simp [c1Step, h0max]
  · intro i t hi ht
    refine ⟨(t0 + cfg.windowMs - t + 999) / 1000, ?_, ?_⟩
    · rw [c1Step, if_neg (not_lt.mpr hi)]
    · have h1 : 1 ≤ t0 + cfg.windowMs - t := by omega
      have := (Nat.le_div_iff_mul_le (k := 1000) (by norm_num)).mpr
        (by omega : 1 * 1000 ≤ t0 + cfg.windowMs - t + 999)
      exact this

/-- Claim C1, witness: the amended window specification applied to a
concrete four-call trace at `maxRequests = 2`. -/
theorem c1_fixed_window_witness :
    (runRL (("a").data) ⟨1000, 2⟩ emptyRateStore
        [(0, false), (500, false), (900, true), (1000, false)]).1 =
      (List.enumFrom 0 ((0 : Nat) :: List.map Prod.fst
          [((500 : Nat), false), (900, true), (1000, false)])).map
        (c1Step ⟨1000, 2⟩ (0 + 1000)) :=
  (c1_fixed_window (("a").data) ⟨1000, 2⟩ emptyRateStore 0 false
    [(500, false), (900, true), (1000, false)] (by decide) rfl (by decide)).1

theorem split_first_colon :
    ∀ {as as' bs bs' : List Char},
      (∀ c ∈ as, c ≠ ':') → (∀ c ∈ as', c ≠ ':') →
      as ++ ':' :: bs = as' ++ ':' :: bs' → as = as' ∧ bs = bs' := by
  intro as
  induction as with
  | nil =>
    intro as' bs bs' _ ha' h
    cases as' with
    | nil => simp only [List.nil_append, List.cons.injEq] at h; exact ⟨rfl, h.2⟩
    | cons x t =>
      simp only [List.nil_append, List.cons_append, List.cons.injEq] at h
      exact absurd h.1.symm (ha' x (by simp))
  | cons x t ih =>
    intro as' bs bs' ha ha' h
    cases as' with
    | nil =>
      simp only [List.cons_append, List.nil_append, List.cons.injEq] at h
      exact absurd h.1 (ha x (by simp))
    | cons x' t' =>
      simp only [List.cons_append, List.cons.injEq] at h
      obtain ⟨hx, hrest⟩ := h
      obtain ⟨h1, h2⟩ := ih (fun c hc => ha c (by simp [hc]))
        (fun c hc => ha' c (by simp [hc])) hrest
      exact ⟨by rw [hx, h1], h2⟩

theorem rlKey_max_eq {cid cid' : List Char} {cfg cfg' : RateLimitConfig}
    (h : rlKey cid cfg = rlKey cid' cfg') : cfg.maxRequests = cfg'.maxRequests := by
  unfold rlKey at h
  have h2 := congrArg List.reverse h
  simp only [List.reverse_append, List.reverse_cons, List.append_assoc,
    List.singleton_append] at h2
  have hm : ∀ c ∈ (natReprL cfg.maxRequests).reverse, c ≠ ':' :=
    fun c hc => natReprL_no_colon _ c (List.mem_reverse.mp hc)
  have hm' : ∀ c ∈ (natReprL cfg'.maxRequests).reverse, c ≠ ':' :=
    fun c hc => natReprL_no_colon _ c (List.mem_reverse.mp hc)
  obtain ⟨hrev, _⟩ := split_first_colon hm hm' h2
  have hrepr : natReprL cfg.maxRequests = natReprL cfg'.maxRequests := by
    have := congrArg List.reverse hrev
    simpa using this
  exact natReprL_inj hrepr

theorem rlinv_empty : RLInv emptyRateStore := by
  intro cid cfg r h
  exact absurd h (by simp [emptyRateStore])

theorem rlinv_cleanup {st : RateStore} (now : Nat) (h : RLInv st) :
    RLInv (cleanupExpiredEntries now st) :=
  fun cid cfg r hr => h cid cfg r (cleanup_lookup hr)

theorem rlinv_st1 {st : RateStore} {now : Nat} {b : Bool} (h : RLInv st) :
    RLInv (if b then cleanupExpiredEntries now st else st) := by
  cases b with
  | false => simpa using h
  | true => simpa using rlinv_cleanup now h

theorem rlinv_set {st1 : RateStore} {cid : List Char} {cfg : RateLimitConfig} {n R : Nat}
    (h : RLInv st1) (h1 : 1 ≤ n) (h2 : n ≤ cfg.maxRequests) :
    RLInv (setStore st1 (rlKey cid cfg) ⟨n, R⟩) := by
  intro cid' cfg' r hr
  unfold setStore at hr
  by_cases heq : rlKey cid' cfg' = rlKey cid cfg
  · rw [if_pos heq] at hr
    injection hr with hr'
    rw [← hr']
    refine ⟨h1, ?_⟩
    show n ≤ cfg'.maxRequests
    rw [rlKey_max_eq heq]
    exact h2
  · rw [if_neg heq] at hr
    exact h cid' cfg' r hr

theorem rlinv_step {st : RateStore} (hinv : RLInv st) (cid : List Char)
    (cfg : RateLimitConfig) (now : Nat) (b : Bool) (hmax : 1 ≤ cfg.maxRequests) :
    RLInv (checkRateLimit cid cfg now b st).2 := by
  have hinv1 : RLInv (if b then cleanupExpiredEntries now st else st) :=
    rlinv_st1 hinv
  simp only [checkRateLimit]
  split
  · exact rlinv_set hinv1 (Nat.le_refl 1) hmax
  · split
    · exact rlinv_set hinv1 (Nat.le_refl 1) hmax
    · split
      · exact hinv1
      · rename_i record heq hlt hge
        exact rlinv_set hinv1 (Nat.le_add_left 1 _) (not_le.mp hge)

theorem rlinv_runAll :
    ∀ (steps : List RLCall) (st : RateStore),
      (∀ s ∈ steps, 1 ≤ s.cfg.maxRequests) → RLInv st → RLInv (runAllStore st steps) := by
  intro steps
  induction steps with
  | nil => intro st _ h; exact h
  | cons s rest ih =>
    intro st hall h
    simp only [runAllStore]
    exact ih _ (fun q hq => hall q (by simp [hq]))
      (rlinv_step h s.clientId s.cfg s.now s.doCleanup (hall s (by simp)))

/-- Claim C7: after any interleaved call history whose configs all have
`maxRequests ≥ 1`, every record in the store satisfies
`1 ≤ count ≤ maxRequests` where `maxRequests` is the value encoded in the
record's key (well-defined because the key's trailing numeral determines
it); moreover, once a record in its window has reached `maxRequests`, a
further call is denied and leaves the record unchanged. -/
theorem c7_store_invariant :
    (∀ steps : List RLCall, (∀ s ∈ steps, 1 ≤ s.cfg.maxRequests) →
        RLInv (runAllStore emptyRateStore steps)) ∧
    (∀ (st : RateStore) (cid : List Char) (cfg : RateLimitConfig) (now : Nat) (b : Bool)
        (c R : Nat), st (rlKey cid cfg) = some ⟨c, R⟩ → now ≤ R → cfg.maxRequests ≤ c →
        (checkRateLimit cid cfg now b st).1.allowed = false ∧
        (checkRateLimit cid cfg now b st).2 (rlKey cid cfg) = some ⟨c, R⟩) := by
  constructor
  · intro steps h
    exact rlinv_runAll steps emptyRateStore h rlinv_empty
  · intro st cid cfg now b c R hst hnow hc
    rw [checkRateLimit_deny (b := b) hst hnow hc]
    exact ⟨rfl, st1_keep (b := b) hst (by simpa using hnow)⟩

/-- Claim C7, witness: the invariant after a concrete three-call history,
and the rejection step at a concrete saturated record. -/
theorem c7_store_invariant_witness :
    (1 ≤ (RateRecord.mk 2 5).count ∧
      (RateRecord.mk 2 5).count ≤ (RateLimitConfig.mk 5 2).maxRequests) ∧
    ((checkRateLimit (("a").data) ⟨5, 2⟩ 3 false
        (setStore emptyRateStore (rlKey (("a").data) ⟨5, 2⟩) ⟨2, 5⟩)).1.allowed = false ∧
      (checkRateLimit (("a").data) ⟨5, 2⟩ 3 false
        (setStore emptyRateStore (rlKey (("a").data) ⟨5, 2⟩) ⟨2, 5⟩)).2
          (rlKey (("a").data) ⟨5, 2⟩) = some ⟨2, 5⟩) :=
  ⟨c7_store_invariant.1
      [⟨("a").data, ⟨5, 2⟩, 0, false⟩, ⟨("a").data, ⟨5, 2⟩, 1, false⟩,
        ⟨("a").data, ⟨5, 2⟩, 2, false⟩]
      (by decide) (("a").data) ⟨5, 2⟩ ⟨2, 5⟩ (by decide),
   c7_store_invariant.2 _ (("a").data) ⟨5, 2⟩ 3 false 2 5 (by decide) (by decide) (by decide)⟩

end WeddingRSVP
